import Mathlib

/-!
Shallow embedding of `sfo-result` (src/src/lib.rs): a generic error value
`Error<T>` pairing a typed code with a message, an optional type-erased cause,
an optional captured backtrace, and an optional call-site (file, line).

Strings are modelled as `List Char`; Rust `write!` concatenation becomes list
append.  Compile-time feature flags (`backtrace`) become a `Cfg` record, and
the runtime result of `Backtrace::force_capture()` becomes an explicit oracle
argument.
-/

namespace SfoResult

/-- Characters of a string literal. -/
def chars (s : String) : List Char := s.data

/-- Model of `std::backtrace::BacktraceStatus`. -/
inductive BacktraceStat where
  | captured
  | disabled
  | unsupported
deriving DecidableEq, Repr

/-- Model of `std::backtrace::Backtrace`: its status and its `to_string()`. -/
structure Backtrace where
  status : BacktraceStat
  str : List Char
deriving DecidableEq, Repr

/-- Model of a boxed `dyn std::error::Error + Send + Sync` cause: all the
rendering code uses of it is its `Debug` output (`{:?}`). -/
structure DynError where
  dbg : List Char
deriving DecidableEq, Repr

/-- Compile-time feature flags consumed by the crate. -/
structure Cfg where
  backtraceFeature : Bool
deriving DecidableEq, Repr

/-- The struct `Error<T>` from src/src/lib.rs. -/
structure Error (T : Type) where
  code : T
  msg : List Char
  source : Option DynError
  backtrace : Option Backtrace
  file : Option (List Char)
  line : Option Nat

/-- The `cfg(feature = "backtrace")` split present in every constructor:
`Some(Backtrace::force_capture())` when the feature is on, `None` otherwise.
`cap` is the oracle for what `force_capture` returned. -/
def captureBacktrace (cfg : Cfg) (cap : Backtrace) : Option Backtrace :=
  if cfg.backtraceFeature then some cap else none

/-- `Error::new(code, msg, file, line)` (lib.rs lines 34-49). -/
def Error.new (cfg : Cfg) (cap : Backtrace) (code : T) (msg : List Char)
    (file : List Char) (line : Nat) : Error T :=
  { code := code, msg := msg, source := none,
    backtrace := captureBacktrace cfg cap,
    file := some file, line := some line }

/-- `impl<T: Default> From<String> for Error<T>` (lib.rs lines 139-155). -/
def Error.fromString (T : Type) [Inhabited T] (cfg : Cfg) (cap : Backtrace)
    (value : List Char) : Error T :=
  { code := default, msg := value, source := none,
    backtrace := captureBacktrace cfg cap,
    file := none, line := none }

/-- `impl From<(T, String, E)> for Error<T>` (lib.rs lines 157-174). -/
def Error.fromCodeMsgCause (cfg : Cfg) (cap : Backtrace) (code : T)
    (msg : List Char) (e : DynError) : Error T :=
  { code := code, msg := msg, source := some e,
    backtrace := captureBacktrace cfg cap,
    file := none, line := none }

/-- `impl From<(T, String, E, &str, u32)> for Error<T>` (lib.rs lines 176-193). -/
def Error.fromCodeMsgCauseAt (cfg : Cfg) (cap : Backtrace) (code : T)
    (msg : List Char) (e : DynError) (file : List Char) (line : Nat) : Error T :=
  { code := code, msg := msg, source := some e,
    backtrace := captureBacktrace cfg cap,
    file := some file, line := some line }

/-- `impl From<(T, &str, E, &str, u32)> for Error<T>` (lib.rs lines 195-211);
`value.1.to_string()` is the identity in the model. -/
def Error.fromCodeStrCauseAt (cfg : Cfg) (cap : Backtrace) (code : T)
    (msg : List Char) (e : DynError) (file : List Char) (line : Nat) : Error T :=
  { code := code, msg := msg, source := some e,
    backtrace := captureBacktrace cfg cap,
    file := some file, line := some line }

/-- The `into_err!(code, ctx...)` macro (lib.rs lines 253-267): builds the
closure `|e| Error::from((code, format!(ctx...), e, file!(), line!()))`;
`ctx` is the already-formatted context message and `file`/`line` the call
site of the macro invocation itself. -/
def into_err (cfg : Cfg) (cap : Backtrace) (code : T) (ctx : List Char)
    (file : List Char) (line : Nat) : DynError → Error T :=
  fun e => Error.fromCodeMsgCauseAt cfg cap code ctx e file line

/-- Fuel-driven digit accumulator for `natChars` (structural recursion so
that the kernel can evaluate it). -/
def natCharsGo : Nat → Nat → List Char → List Char
  | 0, n, acc => Nat.digitChar (n % 10) :: acc
  | fuel + 1, n, acc =>
    if n < 10 then Nat.digitChar n :: acc
    else natCharsGo fuel (n / 10) (Nat.digitChar (n % 10) :: acc)

/-- Decimal rendering of a `u32`, as `write!` formats `self.line`. -/
def natChars (n : Nat) : List Char := natCharsGo n n []

/-- Rust `str::trim_end`: drop trailing whitespace. -/
def trimEnd (s : List Char) : List Char :=
  (s.reverse.dropWhile Char.isWhitespace).reverse

/-- The ` at:[<file>:<line>]` section, guarded by
`self.file.is_some() && self.line.is_some()`. -/
def locSection (e : Error T) : List Char :=
  match e.file, e.line with
  | some f, some l => chars " at:[" ++ f ++ ':' :: (natChars l ++ [']'])
  | _, _ => []

/-- The `, msg:<msg>` section, guarded by `!self.msg.is_empty()`. -/
def msgSection (e : Error T) : List Char :=
  if e.msg = [] then [] else chars ", msg:" ++ e.msg

/-- The stack-trace section: emitted only when a backtrace is present with
`BacktraceStatus::Captured`; the body is capitalized in place when it starts
with `"stack backtrace:"`, otherwise a header line is written first; trailing
whitespace of the written body is trimmed (`truncate(trim_end().len())`). -/
def traceSection (e : Error T) : List Char :=
  match e.backtrace with
  | some b =>
    match b.status with
    | BacktraceStat.captured =>
      if (chars "stack backtrace:").isPrefixOf b.str then
        '\n' :: trimEnd ('S' :: b.str.tail)
      else
        '\n' :: (chars "Stack backtrace:\n" ++ trimEnd b.str)
    | _ => []
  | none => []

/-- The `\nCaused by: <cause:?>` section, guarded by `self.source.is_some()`. -/
def causeSection (e : Error T) : List Char :=
  match e.source with
  | some c => chars "\nCaused by: " ++ c.dbg
  | none => []

/-- `impl<T: Debug> Debug for Error<T>` (lib.rs lines 71-103).
`typeName` models `type_name::<T>()` and `codeDbg` the `Debug` rendering of
the code type. -/
def Error.renderDebug (typeName : List Char) (codeDbg : T → List Char)
    (e : Error T) : List Char :=
  typeName ++ ':' :: codeDbg e.code
    ++ locSection e ++ msgSection e ++ traceSection e ++ causeSection e

/-- `impl<T: Debug> Display for Error<T>` (lib.rs lines 105-137), translated
directly from its own body (which textually duplicates the `Debug` impl). -/
def Error.renderDisplay (typeName : List Char) (codeDbg : T → List Char)
    (e : Error T) : List Char :=
  typeName ++ ':' :: codeDbg e.code
    ++ (match e.file, e.line with
        | some f, some l => chars " at:[" ++ f ++ ':' :: (natChars l ++ [']'])
        | _, _ => [])
    ++ (if e.msg = [] then [] else chars ", msg:" ++ e.msg)
    ++ (match e.backtrace with
        | some b =>
          match b.status with
          | BacktraceStat.captured =>
            if (chars "stack backtrace:").isPrefixOf b.str then
              '\n' :: trimEnd ('S' :: b.str.tail)
            else
              '\n' :: (chars "Stack backtrace:\n" ++ trimEnd b.str)
          | _ => []
        | none => [])
    ++ (match e.source with
        | some c => chars "\nCaused by: " ++ c.dbg
        | none => [])

/-- Serialized form under the `serde` feature: `source` and `backtrace`
carry `#[serde(skip)]`, the other four fields are serialized. -/
structure Serialized (T : Type) where
  code : T
  msg : List Char
  file : Option (List Char)
  line : Option Nat

/-- Serialization of `Error<T>` (serde derive, skipping `source` and
`backtrace`). -/
def Error.serialize (e : Error T) : Serialized T :=
  { code := e.code, msg := e.msg, file := e.file, line := e.line }

/-- Deserialization of `Error<T>`: skipped fields take their `Default`
value, `None`. -/
def Error.deserialize (s : Serialized T) : Error T :=
  { code := s.code, msg := s.msg, source := none, backtrace := none,
    file := s.file, line := s.line }

/-- Errors reachable through the crate's public constructors: `Error::new`,
`From<String>`, and the three tuple `From` conversions. -/
inductive Reachable (T : Type) [Inhabited T] (cfg : Cfg) : Error T → Prop where
  | new (cap : Backtrace) (code : T) (msg file : List Char) (line : Nat) :
      Reachable T cfg (Error.new cfg cap code msg file line)
  | ofString (cap : Backtrace) (value : List Char) :
      Reachable T cfg (Error.fromString T cfg cap value)
  | ofCodeMsgCause (cap : Backtrace) (code : T) (msg : List Char) (e : DynError) :
      Reachable T cfg (Error.fromCodeMsgCause cfg cap code msg e)
  | ofCodeMsgCauseAt (cap : Backtrace) (code : T) (msg : List Char) (e : DynError)
      (file : List Char) (line : Nat) :
      Reachable T cfg (Error.fromCodeMsgCauseAt cfg cap code msg e file line)
  | ofCodeStrCauseAt (cap : Backtrace) (code : T) (msg : List Char) (e : DynError)
      (file : List Char) (line : Nat) :
      Reachable T cfg (Error.fromCodeStrCauseAt cfg cap code msg e file line)

/-! ### Helper lemmas -/

lemma natCharsGo_mem : ∀ (fuel n : Nat) (acc : List Char), ∀ c ∈ natCharsGo fuel n acc,
    (∃ d, d < 10 ∧ c = Nat.digitChar d) ∨ c ∈ acc := by
  intro fuel
  induction fuel with
  | zero =>
    intro n acc c hc
    rcases List.mem_cons.mp hc with h | h
    · exact Or.inl ⟨n % 10, Nat.mod_lt _ (by decide), h⟩
    · exact Or.inr h
  | succ fuel ih =>
    intro n acc c hc
    rw [natCharsGo] at hc
    split at hc
    · next hlt =>
      rcases List.mem_cons.mp hc with h | h
      · exact Or.inl ⟨n, hlt, h⟩
      · exact Or.inr h
    · rcases ih (n / 10) (Nat.digitChar (n % 10) :: acc) c hc with h | h
      · exact Or.inl h
      · rcases List.mem_cons.mp h with h | h
        · exact Or.inl ⟨n % 10, Nat.mod_lt _ (by decide), h⟩
        · exact Or.inr h

lemma natChars_mem : ∀ (n : Nat), ∀ c ∈ natChars n, ∃ d, d < 10 ∧ c = Nat.digitChar d := by
  intro n c hc
  rcases natCharsGo_mem n n [] c hc with h | h
  · exact h
  · cases h

lemma comma_ne_digitChar : ∀ d, d < 10 → ',' ≠ Nat.digitChar d := by decide

lemma upperS_ne_digitChar : ∀ d, d < 10 → 'S' ≠ Nat.digitChar d := by decide

lemma trimEnd_append (p r : List Char) (c : Char) (hc : c.isWhitespace = false) :
    trimEnd (p ++ [c] ++ r) = p ++ [c] ++ trimEnd r := by
  unfold trimEnd
  rw [List.reverse_append, List.reverse_append, List.reverse_singleton,
      List.dropWhile_append]
  by_cases hE : ((r.reverse).dropWhile Char.isWhitespace).isEmpty
  · rw [if_pos hE]
    rw [List.isEmpty_iff] at hE
    rw [hE]
    simp [List.dropWhile_cons, hc]
  · rw [if_neg hE]
    simp

lemma traceSection_captured {e : Error T} {b : Backtrace} (hb : e.backtrace = some b)
    (hst : b.status = BacktraceStat.captured) :
    traceSection e =
      if (chars "stack backtrace:").isPrefixOf b.str then
        '\n' :: trimEnd ('S' :: b.str.tail)
      else
        '\n' :: (chars "Stack backtrace:\n" ++ trimEnd b.str) := by
  unfold traceSection
  rw [hb]
  obtain ⟨st, bstr⟩ := b
  dsimp only at hst ⊢
  subst hst
  rfl

lemma stack_prefix_trimEnd {s : List Char}
    (h : (chars "stack backtrace:").isPrefixOf s = true) :
    ∃ rest, s = chars "stack backtrace:" ++ rest ∧
      trimEnd ('S' :: s.tail) = chars "Stack backtrace:" ++ trimEnd rest := by
  rw [List.isPrefixOf_iff_prefix] at h
  obtain ⟨rest, hr⟩ := h
  refine ⟨rest, hr.symm, ?_⟩
  rw [← hr]
  have h1 : 'S' :: ((chars "stack backtrace:" ++ rest).tail) =
      chars "Stack backtrace" ++ [':'] ++ rest := rfl
  rw [h1, trimEnd_append _ _ _ (by decide)]
  rfl

lemma mem_trimEnd {c : Char} {s : List Char} (h : c ∈ trimEnd s) : c ∈ s := by
  unfold trimEnd at h
  rw [List.mem_reverse] at h
  exact List.mem_reverse.mp ((List.dropWhile_sublist Char.isWhitespace).subset h)

lemma mem_locSection {x : Char} {e : Error T} (h : x ∈ locSection e) :
    x ∈ chars " at:[" ∨ (∃ f, e.file = some f ∧ x ∈ f) ∨ x = ':' ∨
      (∃ d, d < 10 ∧ x = Nat.digitChar d) ∨ x = ']' := by
  unfold locSection at h
  split at h
  · next f l hf hl =>
    rcases List.mem_append.mp h with h | h
    · rcases List.mem_append.mp h with h | h
      · exact Or.inl h
      · exact Or.inr (Or.inl ⟨f, hf, h⟩)
    · rcases List.mem_cons.mp h with h | h
      · exact Or.inr (Or.inr (Or.inl h))
      · rcases List.mem_append.mp h with h | h
        · exact Or.inr (Or.inr (Or.inr (Or.inl (natChars_mem l x h))))
        · rw [List.mem_singleton] at h
          exact Or.inr (Or.inr (Or.inr (Or.inr h)))
  · cases h

lemma mem_msgSection {x : Char} {e : Error T} (h : x ∈ msgSection e) :
    x ∈ chars ", msg:" ∨ x ∈ e.msg := by
  unfold msgSection at h
  split at h
  · cases h
  · exact List.mem_append.mp h

lemma mem_traceSection {x : Char} {e : Error T} (h : x ∈ traceSection e) :
    ∃ b, e.backtrace = some b ∧
      (x = '\n' ∨ x = 'S' ∨ x ∈ chars "Stack backtrace:\n" ∨ x ∈ b.str) := by
  unfold traceSection at h
  split at h
  · next b hb =>
    refine ⟨b, hb, ?_⟩
    split at h
    · split at h
      · simp only [List.mem_cons] at h
        rcases h with h | h
        · exact Or.inl h
        · rcases List.mem_cons.mp (mem_trimEnd h) with h | h
          · exact Or.inr (Or.inl h)
          · exact Or.inr (Or.inr (Or.inr ((List.tail_sublist b.str).subset h)))
      · simp only [List.mem_cons, List.mem_append] at h
        rcases h with h | h | h
        · exact Or.inl h
        · exact Or.inr (Or.inr (Or.inl h))
        · exact Or.inr (Or.inr (Or.inr (mem_trimEnd h)))
    · cases h
  · cases h

lemma mem_causeSection {x : Char} {e : Error T} (h : x ∈ causeSection e) :
    ∃ c, e.source = some c ∧ (x ∈ chars "\nCaused by: " ∨ x ∈ c.dbg) := by
  unfold causeSection at h
  split at h
  · next c hc => exact ⟨c, hc, List.mem_append.mp h⟩
  · cases h

lemma mem_renderDebug {x : Char} {tn : List Char} {dbg : T → List Char} {e : Error T}
    (h : x ∈ e.renderDebug tn dbg) :
    x ∈ tn ∨ x = ':' ∨ x ∈ dbg e.code ∨ x ∈ locSection e ∨ x ∈ msgSection e ∨
      x ∈ traceSection e ∨ x ∈ causeSection e := by
  unfold Error.renderDebug at h
  simp only [List.mem_append, List.mem_cons] at h
  tauto

lemma traceSection_of_none {e : Error T} (h : e.backtrace = none) :
    traceSection e = [] := by
  unfold traceSection
  rw [h]

/-! ### Claim theorems -/

/-- C1, counterexample: `Error::new` takes `file` and `line` arguments and always
records them, so a value built by `new` does have a recorded call-site and its
rendering does carry a location — refuting the claim that it has none. -/
theorem C1_counterexample :
    (Error.new (Cfg.mk false) (Backtrace.mk BacktraceStat.disabled []) (0 : Nat)
        (chars "m") (chars "a.rs") 7).file = some (chars "a.rs") ∧
    (Error.new (Cfg.mk false) (Backtrace.mk BacktraceStat.disabled []) (0 : Nat)
        (chars "m") (chars "a.rs") 7).line = some 7 ∧
    chars " at:[" <:+:
      (Error.new (Cfg.mk false) (Backtrace.mk BacktraceStat.disabled []) (0 : Nat)
        (chars "m") (chars "a.rs") 7).renderDebug (chars "Code") (fun _ => chars "0") := by
  refine ⟨rfl, rfl, ?_⟩
  decide

/-- C1, amended: `new(c, m, file, line)` produces an error with `code() == c`,
`message() == m`, no cause, and with the given call-site recorded in both
fields, so its rendering carries the ` at:[` location marker. -/
theorem C1_new_fields (cfg : Cfg) (cap : Backtrace) (c : T) (m f : List Char) (l : Nat) :
    (Error.new cfg cap c m f l).code = c ∧
    (Error.new cfg cap c m f l).msg = m ∧
    (Error.new cfg cap c m f l).source = none ∧
    (Error.new cfg cap c m f l).file = some f ∧
    (Error.new cfg cap c m f l).line = some l ∧
    ∀ tn dbg, chars " at:[" <:+: (Error.new cfg cap c m f l).renderDebug tn dbg := by
  refine ⟨rfl, rfl, rfl, rfl, rfl, ?_⟩
  intro tn dbg
  refine ⟨tn ++ ':' :: dbg c,
    f ++ ':' :: (natChars l ++ [']']) ++ msgSection (Error.new cfg cap c m f l)
      ++ traceSection (Error.new cfg cap c m f l)
      ++ causeSection (Error.new cfg cap c m f l), ?_⟩
  simp [Error.renderDebug, locSection, Error.new]

/-- C2: the `Debug` and `Display` implementations render every error value
to the identical string. -/
theorem C2_debug_eq_display (tn : List Char) (dbg : T → List Char) (e : Error T) :
    e.renderDebug tn dbg = e.renderDisplay tn dbg := rfl

/-- C3: the rendering is the fixed-order concatenation of the code section,
the location section (present iff a call-site was recorded), the message
section (present iff the message is non-empty), the trace section (present
iff a trace exists with `Captured` status, and then formed of a newline, a
`Stack backtrace:` header and the trimmed body), and finally the cause
section (`"\nCaused by: "` plus the cause's debug rendering) — so the trace
always precedes the cause. -/
theorem C3_section_order (tn : List Char) (dbg : T → List Char) (e : Error T) :
    e.renderDebug tn dbg =
      tn ++ ':' :: dbg e.code ++ locSection e ++ msgSection e ++ traceSection e
        ++ causeSection e
    ∧ (∀ f l, e.file = some f → e.line = some l →
        locSection e = chars " at:[" ++ f ++ ':' :: (natChars l ++ [']']))
    ∧ ((e.file = none ∨ e.line = none) → locSection e = [])
    ∧ (e.msg ≠ [] → msgSection e = chars ", msg:" ++ e.msg)
    ∧ (e.msg = [] → msgSection e = [])
    ∧ (∀ b, e.backtrace = some b → b.status = BacktraceStat.captured →
        ∃ t, traceSection e = '\n' :: t ∧ chars "Stack backtrace:" <+: t ∧
          ((chars "stack backtrace:").isPrefixOf b.str = true →
            t = trimEnd ('S' :: b.str.tail)) ∧
          ((chars "stack backtrace:").isPrefixOf b.str = false →
            t = chars "Stack backtrace:\n" ++ trimEnd b.str))
    ∧ (∀ b, e.backtrace = some b → b.status ≠ BacktraceStat.captured →
        traceSection e = [])
    ∧ (e.backtrace = none → traceSection e = [])
    ∧ (∀ c, e.source = some c →
        causeSection e = '\n' :: (chars "Caused by: " ++ c.dbg))
    ∧ (e.source = none → causeSection e = []) := by
  refine ⟨rfl, ?_, ?_, ?_, ?_, ?_, ?_, traceSection_of_none, ?_, ?_⟩
  · intro f l hf hl
    unfold locSection
    rw [hf, hl]
  · intro h
    unfold locSection
    split
    · next f l hf hl =>
      rcases h with h | h
      · rw [h] at hf; cases hf
      · rw [h] at hl; cases hl
    · rfl
  · intro h
    unfold msgSection
    rw [if_neg h]
  · intro h
    unfold msgSection
    rw [if_pos h]
  · intro b hb hst
    rw [traceSection_captured hb hst]
    by_cases hpre : (chars "stack backtrace:").isPrefixOf b.str = true
    · rw [if_pos hpre]
      obtain ⟨rest, _, htr⟩ := stack_prefix_trimEnd hpre
      exact ⟨trimEnd ('S' :: b.str.tail), rfl,
        htr ▸ ⟨trimEnd rest, rfl⟩,
        fun _ => rfl, fun hfalse => absurd hpre (by rw [hfalse]; decide)⟩
    · rw [if_neg hpre]
      refine ⟨chars "Stack backtrace:\n" ++ trimEnd b.str, rfl, ?_, ?_, fun _ => rfl⟩
      · exact ⟨'\n' :: trimEnd b.str, rfl⟩
      · intro htrue; exact absurd htrue hpre
  · intro b hb hst
    unfold traceSection
    rw [hb]
    obtain ⟨st, bstr⟩ := b
    dsimp only at hst ⊢
    cases st
    · exact absurd rfl hst
    · rfl
    · rfl
  · intro c hc
    unfold causeSection
    rw [hc]
    rfl
  · intro hc
    unfold causeSection
    rw [hc]

/-- C4: the conversion function built by `into_err!(c, ctx)` maps a foreign
error `e` to an error whose code is `c`, whose message is the formatted
context, and whose stored cause is exactly `e` (hence renders identically). -/
theorem C4_into_err (cfg : Cfg) (cap : Backtrace) (c : T) (ctx f : List Char)
    (l : Nat) (e : DynError) :
    (into_err cfg cap c ctx f l e).code = c ∧
    (into_err cfg cap c ctx f l e).msg = ctx ∧
    (into_err cfg cap c ctx f l e).source = some e ∧
    ((into_err cfg cap c ctx f l e).source.map DynError.dbg) = some e.dbg :=
  ⟨rfl, rfl, rfl, rfl⟩

/-- C5: with the `serde` feature, serializing then deserializing preserves
`code` and `msg` exactly, and the deserialized error has no cause and no
backtrace (both fields are `#[serde(skip)]`). -/
theorem C5_serde_roundtrip (e : Error T) :
    (Error.deserialize e.serialize).code = e.code ∧
    (Error.deserialize e.serialize).msg = e.msg ∧
    (Error.deserialize e.serialize).source = none ∧
    (Error.deserialize e.serialize).backtrace = none :=
  ⟨rfl, rfl, rfl, rfl⟩

/-- C6: whenever a cause is present, the rendering contains `"Caused by: "`
followed, character for character, by the cause's debug rendering. -/
theorem C6_caused_by (tn : List Char) (dbg : T → List Char) (e : Error T)
    (c : DynError) (h : e.source = some c) :
    (chars "Caused by: " ++ c.dbg) <:+: e.renderDebug tn dbg := by
  refine ⟨tn ++ ':' :: dbg e.code ++ locSection e ++ msgSection e ++ traceSection e
    ++ ['\n'], [], ?_⟩
  simp [Error.renderDebug, causeSection, h, chars]

/-- C6, witness at a concrete error with a cause. -/
theorem C6_caused_by_witness :
    (chars "Caused by: " ++ chars "boom") <:+:
      (Error.fromCodeMsgCause (Cfg.mk false) (Backtrace.mk BacktraceStat.disabled [])
        (0 : Nat) (chars "m") (DynError.mk (chars "boom"))).renderDebug
        (chars "Code") (fun _ => chars "0") :=
  C6_caused_by (chars "Code") (fun _ => chars "0") _ (DynError.mk (chars "boom")) rfl

/-- C7, counterexample: an error with an empty message but whose cause's
debug rendering contains `", msg:"` (e.g. the cause is itself a rendered
`Error` with a non-empty message) renders with `", msg:"` in it, refuting
the claim for arbitrary error values. -/
theorem C7_counterexample :
    (Error.fromCodeMsgCause (Cfg.mk false) (Backtrace.mk BacktraceStat.disabled [])
      (0 : Nat) [] (DynError.mk (chars "Code:0, msg:test"))).msg = [] ∧
    chars ", msg:" <:+:
      (Error.fromCodeMsgCause (Cfg.mk false) (Backtrace.mk BacktraceStat.disabled [])
        (0 : Nat) [] (DynError.mk (chars "Code:0, msg:test"))).renderDebug
        (chars "Code") (fun _ => chars "0") := by
  refine ⟨rfl, ?_⟩
  decide

/-- C7, amended: an error with an empty message emits no message section, so
its rendering contains `", msg:"` only if one of the caller-supplied texts
(type name, code debug text, file, trace body, cause rendering) supplies a
comma; whenever those are comma-free the substring cannot occur. -/
theorem C7_empty_msg (tn : List Char) (dbg : T → List Char) (e : Error T)
    (hmsg : e.msg = [])
    (h1 : ',' ∉ tn) (h2 : ',' ∉ dbg e.code)
    (h3 : ∀ f, e.file = some f → ',' ∉ f)
    (h4 : ∀ b, e.backtrace = some b → ',' ∉ b.str)
    (h5 : ∀ c, e.source = some c → ',' ∉ c.dbg) :
    ¬ (chars ", msg:" <:+: e.renderDebug tn dbg) := by
  intro hinf
  have hmem : ',' ∈ e.renderDebug tn dbg := hinf.subset (by decide)
  rcases mem_renderDebug hmem with h | h | h | h | h | h | h
  · exact h1 h
  · exact absurd h (by decide)
  · exact h2 h
  · rcases mem_locSection h with h | ⟨f, hf, h⟩ | h | ⟨d, hd, h⟩ | h
    · exact absurd h (by decide)
    · exact h3 f hf h
    · exact absurd h (by decide)
    · exact comma_ne_digitChar d hd h
    · exact absurd h (by decide)
  · have hempty : msgSection e = [] := by unfold msgSection; rw [if_pos hmsg]
    rw [hempty] at h
    cases h
  · rcases mem_traceSection h with ⟨b, hb, h | h | h | h⟩
    · exact absurd h (by decide)
    · exact absurd h (by decide)
    · exact absurd h (by decide)
    · exact h4 b hb h
  · rcases mem_causeSection h with ⟨c, hc, h | h⟩
    · exact absurd h (by decide)
    · exact h5 c hc h

/-- C7, witness at a concrete comma-free error with an empty message. -/
theorem C7_empty_msg_witness :
    ¬ (chars ", msg:" <:+:
      (Error.new (Cfg.mk false) (Backtrace.mk BacktraceStat.disabled []) (0 : Nat)
        [] (chars "a.rs") 7).renderDebug (chars "Code") (fun _ => chars "0")) :=
  C7_empty_msg (chars "Code") (fun _ => chars "0") _ rfl (by decide) (by decide)
    (by intro f hf; injection hf with h; subst h; decide)
    (by intro b hb; cases hb)
    (by intro c hc; cases hc)

/-- C9, counterexample: with the `backtrace` feature off no trace is stored,
yet the rendering can still contain `"Stack backtrace:"` when the message
(or any other caller-supplied text) contains it — refuting the claim for
arbitrary error values. -/
theorem C9_counterexample :
    (Error.new (Cfg.mk false) (Backtrace.mk BacktraceStat.disabled []) (0 : Nat)
      (chars "Stack backtrace: fake") (chars "f.rs") 1).backtrace = none ∧
    chars "Stack backtrace:" <:+:
      (Error.new (Cfg.mk false) (Backtrace.mk BacktraceStat.disabled []) (0 : Nat)
        (chars "Stack backtrace: fake") (chars "f.rs") 1).renderDebug
        (chars "Code") (fun _ => chars "0") := by
  refine ⟨rfl, ?_⟩
  decide

/-- C9, amended: with the `backtrace` feature compiled out (the `backtrace()`
accessor is then absent from the API), every constructed error stores no
trace and the rendering emits no trace section; the string
`"Stack backtrace:"` can then only come from caller-supplied text, so when
the type name, code text, file, message and cause rendering are free of the
letter `S` the rendering never contains it. -/
theorem C9_no_trace (T : Type) [Inhabited T] (e : Error T)
    (hr : Reachable T (Cfg.mk false) e) :
    e.backtrace = none ∧ traceSection e = [] ∧
    ∀ tn (dbg : T → List Char), 'S' ∉ tn → 'S' ∉ dbg e.code →
      (∀ f, e.file = some f → 'S' ∉ f) → 'S' ∉ e.msg →
      (∀ c, e.source = some c → 'S' ∉ c.dbg) →
      ¬ (chars "Stack backtrace:" <:+: e.renderDebug tn dbg) := by
  have hbt : e.backtrace = none := by
    cases hr <;>
      simp [Error.new, Error.fromString, Error.fromCodeMsgCause,
        Error.fromCodeMsgCauseAt, Error.fromCodeStrCauseAt, captureBacktrace]
  refine ⟨hbt, traceSection_of_none hbt, ?_⟩
  intro tn dbg h1 h2 h3 hmsg h5 hinf
  have hmem : 'S' ∈ e.renderDebug tn dbg := hinf.subset (by decide)
  rcases mem_renderDebug hmem with h | h | h | h | h | h | h
  · exact h1 h
  · exact absurd h (by decide)
  · exact h2 h
  · rcases mem_locSection h with h | ⟨f, hf, h⟩ | h | ⟨d, hd, h⟩ | h
    · exact absurd h (by decide)
    · exact h3 f hf h
    · exact absurd h (by decide)
    · exact upperS_ne_digitChar d hd h
    · exact absurd h (by decide)
  · rcases mem_msgSection h with h | h
    · exact absurd h (by decide)
    · exact hmsg h
  · rw [traceSection_of_none hbt] at h
    cases h
  · rcases mem_causeSection h with ⟨c, hc, h | h⟩
    · exact absurd h (by decide)
    · exact h5 c hc h

/-- C9, witness: a concrete error built with the feature off stores no
trace. -/
theorem C9_no_trace_witness :
    (Error.new (Cfg.mk false) (Backtrace.mk BacktraceStat.disabled []) (0 : Nat)
      [] [] 0).backtrace = none :=
  (C9_no_trace Nat _ (Reachable.new _ _ _ _ _)).1

/-- C10: every public constructor records the call-site all-or-nothing —
`file` is present iff `line` is present — and the rendering's location
section is non-empty exactly when both are present. -/
theorem C10_callsite_all_or_nothing (T : Type) [Inhabited T] (cfg : Cfg)
    (e : Error T) (hr : Reachable T cfg e) :
    (e.file.isSome ↔ e.line.isSome) ∧
    (locSection e ≠ [] ↔ (e.file.isSome ∧ e.line.isSome)) := by
  constructor
  · cases hr <;>
      simp [Error.new, Error.fromString, Error.fromCodeMsgCause,
        Error.fromCodeMsgCauseAt, Error.fromCodeStrCauseAt]
  · unfold locSection
    split
    · next f l hf hl =>
      constructor
      · intro _
        rw [hf, hl]
        exact ⟨rfl, rfl⟩
      · intro _ hc
        rcases List.append_eq_nil.mp hc with ⟨_, h2⟩
        cases h2
    · next hfl =>
      constructor
      · intro hc
        exact absurd rfl hc
      · rintro ⟨hf, hl⟩
        rw [Option.isSome_iff_exists] at hf hl
        obtain ⟨f, hf⟩ := hf
        obtain ⟨l, hl⟩ := hl
        exact (hfl f l hf hl).elim

/-- C10, witness at concrete reachable errors (one with, one without a
call-site). -/
theorem C10_callsite_witness :
    ((Error.fromString Nat (Cfg.mk false) (Backtrace.mk BacktraceStat.disabled [])
        (chars "x")).file.isSome ↔
      (Error.fromString Nat (Cfg.mk false) (Backtrace.mk BacktraceStat.disabled [])
        (chars "x")).line.isSome) :=
  (C10_callsite_all_or_nothing Nat (Cfg.mk false) _
    (Reachable.ofString _ _)).1

/-- C8: `From<String>` builds an error whose code is the code type's default
value, whose message is the given string, and which has no cause. -/
theorem C8_from_string (T : Type) [Inhabited T] (cfg : Cfg) (cap : Backtrace)
    (s : List Char) :
    (Error.fromString T cfg cap s).code = (default : T) ∧
    (Error.fromString T cfg cap s).msg = s ∧
    (Error.fromString T cfg cap s).source = none :=
  ⟨rfl, rfl, rfl⟩

end SfoResult
